import Mathlib

/-!
Shallow embedding of the clinic front-desk dashboard core:
`src/components/QueueWidget.tsx` (queue position / progress / turn signal)
and `src/components/PatientLookup.tsx` (patient search over the external
store).  JavaScript strings are Lean `String`s; the JS truthiness tests on
`userSTN` and `queueStatus.now_serving` are modelled with `Option Nat`
(absent = `none`) and explicit `≠ 0` guards; `Math.max` over possibly
negative differences is modelled on `Int`.

The external store (supabase) is modelled per the request the component
builds: an `or` of `ilike '%q%'` filters over `uid`, `phone`, `name`
(case-insensitive substring, per the store contract), an inner join to
`visits` filtered by `status = 'waiting'`, and a top-level
`order('created_at', descending)` which in the supabase client orders the
parent `patients` rows by their own `created_at`; the embedded `visits`
arrays keep the store's own order (the request carries no ordering for the
foreign table).
-/

namespace ClinicDashboard

/-! ### String primitives (JS `trim`, `toLowerCase`, substring test) -/

/-- Drop leading whitespace characters from a character list. -/
def dropLeadingWS : List Char → List Char
  | [] => []
  | c :: cs => if c.isWhitespace then dropLeadingWS cs else c :: cs

/-- JS `String.prototype.trim`: strip leading and trailing whitespace. -/
def jsTrim (s : String) : String :=
  ⟨(dropLeadingWS (dropLeadingWS s.data).reverse).reverse⟩

/-- JS `String.prototype.toLowerCase` (ASCII case folding). -/
def strLower (s : String) : String := ⟨s.data.map Char.toLower⟩

/-- `startsWithL n h`: the list `h` starts with the list `n`. -/
def startsWithL : List Char → List Char → Bool
  | [], _ => true
  | _ :: _, [] => false
  | a :: as, b :: bs => a == b && startsWithL as bs

/-- `containsL n h`: the list `n` occurs contiguously inside `h`. -/
def containsL : List Char → List Char → Bool
  | n, [] => startsWithL n []
  | n, b :: bs => startsWithL n (b :: bs) || containsL n bs

/-- Case-insensitive substring test: `ilike '%q%'` applied to field `hay`. -/
def ciContains (hay q : String) : Bool :=
  containsL (strLower q).data (strLower hay).data

/-! ### Data model (`src/types`: Patient, Visit) -/

/-- A visit row as selected by the lookup query. -/
structure Visit where
  id : Nat
  status : String
  queue_position : Nat
  estimated_wait_time : Nat
  payment_status : String
  payment_amount : Nat
  created_at : Nat
  department_name : String
  doctor_name : String
deriving DecidableEq

/-- A patient row; `created_at` is the row timestamp the query orders by. -/
structure Patient where
  id : Nat
  uid : String
  name : String
  phone : String
  age : Nat
  created_at : Nat
deriving DecidableEq

/-- A store row: a patient together with its joined visits, in store order. -/
structure PatientRow where
  patient : Patient
  visits : List Visit
deriving DecidableEq

/-- Result shape built by `handleSearch`: `{...patient, currentVisit}`. -/
structure SearchResult where
  patient : Patient
  currentVisit : Option Visit
deriving DecidableEq

/-! ### The search request (`PatientLookup.tsx` lines 30-48) -/

/-- The `.or(uid.ilike.%q%,phone.ilike.%q%,name.ilike.%q%)` filter. -/
def matchesQuery (q : String) (p : Patient) : Bool :=
  ciContains p.uid q || ciContains p.phone q || ciContains p.name q

/-- The `.eq('visits.status', 'waiting')` filter on the joined visits. -/
def waitingVisits (row : PatientRow) : List Visit :=
  row.visits.filter (fun v => v.status == "waiting")

/-- Insert a row into a list sorted by patient `created_at` descending. -/
def insertRow (r : PatientRow) : List PatientRow → List PatientRow
  | [] => [r]
  | x :: xs =>
    if x.patient.created_at ≤ r.patient.created_at then r :: x :: xs
    else x :: insertRow r xs

/-- `.order('created_at', { ascending: false })` on the parent rows. -/
def sortRows : List PatientRow → List PatientRow
  | [] => []
  | x :: xs => insertRow x (sortRows xs)

/-- The store's answer to the request the component builds: filter patients
by the disjunctive substring predicate, restrict joined visits to status
`waiting`, drop patients left with no visit (inner join), and order the
patient rows by their `created_at` descending. -/
def runQuery (q : String) (store : List PatientRow) : List PatientRow :=
  sortRows (((store.filter (fun row => matchesQuery q row.patient)).map
      (fun row => { row with visits := waitingVisits row })).filter
      (fun row => !row.visits.isEmpty))

/-- `patients?.map(p => ({...p, currentVisit: p.visits?.[0]})) || []`. -/
def shapeResults (rows : List PatientRow) : List SearchResult :=
  rows.map (fun row => { patient := row.patient, currentVisit := row.visits.head? })

/-! ### `handleSearch` control flow (`PatientLookup.tsx` lines 19-67) -/

/-- The typed outcome of one search invocation. -/
inductive SearchError where
  | emptyQuery : SearchError
  | searchFailed : SearchError
deriving DecidableEq

/-- The control flow of `handleSearch` as a `Result`: blank query is
rejected before any request; a store error is caught and surfaced; a
successful response is shaped into results.  `storeResp` is the outcome of
the awaited supabase call. -/
def search (q : String) (storeResp : Except String (List PatientRow)) :
    Except SearchError (List SearchResult) :=
  if jsTrim q = "" then Except.error SearchError.emptyQuery
  else
    match storeResp with
    | Except.error _ => Except.error SearchError.searchFailed
    | Except.ok rows => Except.ok (shapeResults rows)

/-- The full pipeline on a well-behaved store. -/
def searchStore (q : String) (store : List PatientRow) :
    Except SearchError (List SearchResult) :=
  search q (Except.ok (runQuery q store))

/-- The component state touched by `handleSearch`. -/
structure UIState where
  searchTerm : String
  searchResults : List SearchResult
  isLoading : Bool
  error : Option String
deriving DecidableEq

/-- One `handleSearch` invocation as a state transition: the blank-query
guard leaves everything but `error` alone; a store error sets the failure
message and leaves `searchResults` alone; success replaces the result list
wholesale and sets the no-match message exactly when it is empty. -/
def handleSearch (st : UIState) (storeResp : Except String (List PatientRow)) :
    UIState :=
  if jsTrim st.searchTerm = "" then
    { st with error := some "Please enter a search term" }
  else
    match storeResp with
    | Except.error _ =>
        { st with isLoading := false,
                  error := some "Failed to search patients. Please try again." }
    | Except.ok rows =>
        let results := shapeResults rows
        { st with isLoading := false,
                  searchResults := results,
                  error := if results.isEmpty then
                      some "No patients found matching your search"
                    else none }

/-! ### Queue derivations (`QueueWidget.tsx`) -/

/-- Line 25: `userSTN && queueStatus.now_serving
? Math.max(0, userSTN - queueStatus.now_serving) : 0`.  JS truthiness makes
an absent or zero token, and a zero `now_serving`, all yield 0. -/
def computePosition (userSTN : Option Nat) (now_serving : Nat) : Int :=
  match userSTN with
  | some t =>
      if t ≠ 0 ∧ now_serving ≠ 0 then max 0 ((t : Int) - (now_serving : Int))
      else 0
  | none => 0

/-- Lines 77-84: the turn banner renders iff
`userSTN && userPosition === 0 && queueStatus.now_serving >= userSTN`. -/
def isCallerTurn (userSTN : Option Nat) (now_serving : Nat) : Bool :=
  match userSTN with
  | some t =>
      decide (t ≠ 0) && decide (computePosition (some t) now_serving = 0)
        && decide (t ≤ now_serving)
  | none => false

/-- Line 71: the progress bar width
`Math.min(100, Math.max(0, (now_serving / userSTN) * 100))`. -/
def progressPercent (now_serving t : Nat) : ℚ :=
  min 100 (max 0 ((now_serving : ℚ) / (t : ℚ) * 100))

/-- The bar width as a fraction of the full bar. -/
def computeProgressRatio (now_serving t : Nat) : ℚ :=
  progressPercent now_serving t / 100

/-- Lines 62-75: the progress section renders, and hence the division by
`userSTN` happens, only under `userSTN && userPosition > 0`. -/
def progressSection (userSTN : Option Nat) (now_serving : Nat) : Option ℚ :=
  match userSTN with
  | some t =>
      if t ≠ 0 ∧ 0 < computePosition (some t) now_serving then
        some (progressPercent now_serving t)
      else none
  | none => none

/-! ### Concrete sample data -/

/-- Sample patient: oldest row, phone contains `555-0100` as a prefix. -/
def annAlpha : Patient :=
  { id := 1, uid := "P001", name := "Ann Alpha", phone := "555-0100ABC",
    age := 30, created_at := 1 }

/-- Sample patient: middle row. -/
def annBeta : Patient :=
  { id := 2, uid := "P002", name := "Ann Beta", phone := "555-0200",
    age := 40, created_at := 2 }

/-- Sample patient: newest matching row, two waiting visits. -/
def annGamma : Patient :=
  { id := 3, uid := "P003", name := "Ann Gamma", phone := "555-0300",
    age := 50, created_at := 3 }

/-- Sample patient: matches by name and phone but has no waiting visit. -/
def annOmega : Patient :=
  { id := 4, uid := "P004", name := "Ann Omega", phone := "555-0100",
    age := 60, created_at := 4 }

/-- annAlpha's waiting visit, created at time 10. -/
def visitA : Visit :=
  { id := 10, status := "waiting", queue_position := 1,
    estimated_wait_time := 15, payment_status := "pending",
    payment_amount := 0, created_at := 10, department_name := "General",
    doctor_name := "Dr. A" }

/-- annBeta's waiting visit, created at time 5. -/
def visitB : Visit :=
  { id := 20, status := "waiting", queue_position := 2,
    estimated_wait_time := 30, payment_status := "paid",
    payment_amount := 50, created_at := 5, department_name := "General",
    doctor_name := "Dr. B" }

/-- annGamma's first-listed waiting visit, the older one (time 7). -/
def visitC1 : Visit :=
  { id := 30, status := "waiting", queue_position := 3,
    estimated_wait_time := 45, payment_status := "pending",
    payment_amount := 0, created_at := 7, department_name := "General",
    doctor_name := "Dr. C" }

/-- annGamma's second-listed waiting visit, the newer one (time 9). -/
def visitC2 : Visit :=
  { id := 31, status := "waiting", queue_position := 4,
    estimated_wait_time := 60, payment_status := "pending",
    payment_amount := 0, created_at := 9, department_name := "Cardio",
    doctor_name := "Dr. D" }

/-- annOmega's only visit: already completed. -/
def visitDone : Visit :=
  { id := 40, status := "completed", queue_position := 0,
    estimated_wait_time := 0, payment_status := "paid",
    payment_amount := 80, created_at := 6, department_name := "General",
    doctor_name := "Dr. E" }

/-- A small store: three patients named `Ann ...` with waiting visits and
one whose only visit is completed. -/
def demoStore : List PatientRow :=
  [ { patient := annAlpha, visits := [visitA] },
    { patient := annBeta, visits := [visitB] },
    { patient := annGamma, visits := [visitC1, visitC2] },
    { patient := annOmega, visits := [visitDone] } ]

/-! ### Queue claims -/

/-- C4 counterexample: at `callerToken = 1`, `nowServing = 0` the widget
computes position 0, not `max 0 (1 - 0) = 1`, because JS truthiness sends a
zero `now_serving` to the `: 0` branch. -/
theorem C4_counterexample :
    computePosition (some 1) 0 = 0
      ∧ computePosition (some 1) 0 ≠ max 0 ((1 : Int) - (0 : Int)) := by
  decide

/-- C4 (amended): for positive `callerToken` and positive `nowServing` the
computed position is `max 0 (callerToken - nowServing)`; the position is
never negative, and an absent token yields position 0. -/
theorem C4_position_formula (t s : Nat) (ht : 0 < t) (hs : 0 < s) :
    computePosition (some t) s = max 0 ((t : Int) - (s : Int))
      ∧ 0 ≤ computePosition (some t) s
      ∧ computePosition none s = 0 := by
  refine ⟨?_, ?_, rfl⟩
  · simp [computePosition, ht.ne', hs.ne']
  · simp only [computePosition, ht.ne', hs.ne', ne_eq, not_false_iff, and_self,
      if_true]
    exact le_max_left _ _

/-- Witness for `C4_position_formula` at `callerToken = 8`,
`nowServing = 5` (the spec scenario with position 3). -/
theorem C4_position_formula_witness :
    0 < 8 ∧ 0 < 5
      ∧ (computePosition (some 8) 5 = max 0 ((8 : Int) - (5 : Int))
          ∧ 0 ≤ computePosition (some 8) 5
          ∧ computePosition none 5 = 0) :=
  ⟨by decide, by decide, C4_position_formula 8 5 (by decide) (by decide)⟩

/-- C5: for a positive set token the turn banner shows iff
`nowServing ≥ callerToken`, and it never shows when the token is absent. -/
theorem C5_turn_signal (t s : Nat) (ht : 0 < t) :
    (isCallerTurn (some t) s = true ↔ t ≤ s)
      ∧ isCallerTurn none s = false := by
  refine ⟨?_, rfl⟩
  simp only [isCallerTurn, Bool.and_eq_true, decide_eq_true_iff]
  constructor
  · rintro ⟨⟨-, -⟩, h⟩
    exact h
  · intro hts
    refine ⟨⟨by omega, ?_⟩, hts⟩
    have hcond : t ≠ 0 ∧ s ≠ 0 := ⟨by omega, by omega⟩
    rw [computePosition, if_pos hcond, max_eq_left_iff]
    omega

/-- Witness for `C5_turn_signal` at `nowServing = 9`, `callerToken = 8`
(the spec scenario where it is the caller's turn). -/
theorem C5_turn_signal_witness :
    0 < 8 ∧ isCallerTurn (some 8) 9 = true ∧ isCallerTurn none 9 = false :=
  ⟨by decide, ((C5_turn_signal 8 9 (by decide)).1).mpr (by decide),
    (C5_turn_signal 8 9 (by decide)).2⟩

/-- C6: for a positive token the progress ratio lies in `[0, 1]`, clamps to
1 when `nowServing` overtakes the token, and the division is guarded: the
progress section never renders for a zero or absent token, so
`callerToken = 0` never reaches the division. -/
theorem C6_progress_ratio_clamped (s t : Nat) (ht : 0 < t) :
    (0 ≤ computeProgressRatio s t ∧ computeProgressRatio s t ≤ 1
        ∧ (t < s → computeProgressRatio s t = 1))
      ∧ progressSection (some 0) s = none ∧ progressSection none s = none := by
  refine ⟨⟨?_, ?_, ?_⟩, by simp [progressSection], rfl⟩
  · exact div_nonneg (le_min (by norm_num) (le_max_left _ _)) (by norm_num)
  · rw [computeProgressRatio, div_le_one (by norm_num)]
    exact min_le_left _ _
  · intro hts
    have ht' : (0 : ℚ) < (t : ℚ) := by exact_mod_cast ht
    have hd : (1 : ℚ) < (s : ℚ) / (t : ℚ) := by
      rw [lt_div_iff₀ ht', one_mul]
      exact_mod_cast hts
    have hx : (100 : ℚ) < (s : ℚ) / (t : ℚ) * 100 := by nlinarith
    rw [computeProgressRatio, progressPercent,
      max_eq_right (by nlinarith : (0 : ℚ) ≤ (s : ℚ) / (t : ℚ) * 100),
      min_eq_left hx.le]
    norm_num

/-- Witness for `C6_progress_ratio_clamped` at `nowServing = 5`,
`callerToken = 8` (the spec scenario with ratio 0.625). -/
theorem C6_progress_ratio_clamped_witness :
    0 < 8
      ∧ ((0 ≤ computeProgressRatio 5 8 ∧ computeProgressRatio 5 8 ≤ 1
            ∧ (8 < 5 → computeProgressRatio 5 8 = 1))
          ∧ progressSection (some 0) 5 = none
          ∧ progressSection none 5 = none) :=
  ⟨by decide, C6_progress_ratio_clamped 5 8 (by decide)⟩

/-- C9: a zero `now_serving` counter collapses the computed position to 0
(never to `callerToken`), exactly as an absent or zero token does. -/
theorem C9_zero_now_serving_collapses (t s : Nat) :
    computePosition (some t) 0 = 0 ∧ computePosition (some 0) s = 0
      ∧ computePosition none s = 0
      ∧ (0 < t → computePosition (some t) 0 ≠ (t : Int)) := by
  refine ⟨by simp [computePosition], by simp [computePosition], rfl, ?_⟩
  intro ht
  simp only [computePosition, ne_eq, not_true_eq_false, and_false, if_false]
  omega

/-- Witness for `C9_zero_now_serving_collapses` at `callerToken = 5`. -/
theorem C9_zero_now_serving_collapses_witness :
    computePosition (some 5) 0 = 0 ∧ computePosition (some 0) 0 = 0
      ∧ computePosition none 0 = 0 ∧ computePosition (some 5) 0 ≠ (5 : Int) :=
  ⟨(C9_zero_now_serving_collapses 5 0).1, (C9_zero_now_serving_collapses 5 0).2.1,
    (C9_zero_now_serving_collapses 5 0).2.2.1,
    (C9_zero_now_serving_collapses 5 0).2.2.2 (by decide)⟩

/-! ### Substring and sorting lemmas -/

/-- `startsWithL` decides the existence of a completing suffix. -/
theorem startsWithL_iff (n h : List Char) :
    startsWithL n h = true ↔ ∃ r, h = n ++ r := by
  induction n generalizing h with
  | nil => simp [startsWithL]
  | cons a as ih =>
    cases h with
    | nil => simp [startsWithL]
    | cons b bs =>
      simp only [startsWithL, Bool.and_eq_true, beq_iff_eq, ih]
      constructor
      · rintro ⟨rfl, r, rfl⟩
        exact ⟨r, rfl⟩
      · rintro ⟨r, hr⟩
        rw [List.cons_append] at hr
        obtain ⟨rfl, hbs⟩ := List.cons.injEq .. ▸ hr
        exact ⟨rfl, r, hbs⟩

/-- `containsL` decides the existence of a contiguous occurrence. -/
theorem containsL_iff (n h : List Char) :
    containsL n h = true ↔ ∃ l r, h = l ++ n ++ r := by
  induction h with
  | nil =>
    simp only [containsL, startsWithL_iff]
    constructor
    · rintro ⟨r, hr⟩
      exact ⟨[], r, by simpa using hr⟩
    · rintro ⟨l, r, hr⟩
      have h2 := hr.symm
      rw [List.append_eq_nil] at h2
      obtain ⟨h1, hrr⟩ := h2
      rw [List.append_eq_nil] at h1
      exact ⟨[], by simp [h1.2]⟩
  | cons b bs ih =>
    simp only [containsL, Bool.or_eq_true, startsWithL_iff, ih]
    constructor
    · rintro (⟨r, hr⟩ | ⟨l, r, hr⟩)
      · exact ⟨[], r, by simpa using hr⟩
      · exact ⟨b :: l, r, by simp [hr]⟩
    · rintro ⟨l, r, hr⟩
      cases l with
      | nil => exact Or.inl ⟨r, by simpa using hr⟩
      | cons x xs =>
        simp only [List.cons_append, List.cons.injEq] at hr
        obtain ⟨rfl, hbs⟩ := hr
        exact Or.inr ⟨xs, r, hbs⟩

/-- Membership in an `insertRow` insertion. -/
theorem mem_insertRow (r x : PatientRow) (l : List PatientRow) :
    x ∈ insertRow r l ↔ x = r ∨ x ∈ l := by
  induction l with
  | nil => simp [insertRow]
  | cons y ys ih =>
    rw [insertRow]
    split
    · simp [List.mem_cons]
    · simp only [List.mem_cons, ih]
      tauto

/-- `sortRows` reorders without adding or dropping rows. -/
theorem mem_sortRows (x : PatientRow) (l : List PatientRow) :
    x ∈ sortRows l ↔ x ∈ l := by
  induction l with
  | nil => simp [sortRows]
  | cons y ys ih => simp [sortRows, mem_insertRow, ih]

/-- Inserting into a list sorted by patient `created_at` descending keeps
it sorted. -/
theorem pairwise_insertRow (r : PatientRow) (l : List PatientRow)
    (hl : l.Pairwise (fun a b => b.patient.created_at ≤ a.patient.created_at)) :
    (insertRow r l).Pairwise
      (fun a b => b.patient.created_at ≤ a.patient.created_at) := by
  induction l with
  | nil => simp [insertRow]
  | cons y ys ih =>
    rw [insertRow]
    have hl' := List.pairwise_cons.mp hl
    split
    · rename_i hle
      refine List.Pairwise.cons ?_ hl
      intro b hb
      rcases List.mem_cons.mp hb with rfl | hb'
      · exact hle
      · exact le_trans (hl'.1 b hb') hle
    · rename_i hgt
      refine List.Pairwise.cons ?_ (ih hl'.2)
      intro b hb
      rcases (mem_insertRow r b ys).mp hb with rfl | hb'
      · exact le_of_not_le hgt
      · exact hl'.1 b hb'

/-- `sortRows` output is sorted by patient `created_at` descending. -/
theorem sortRows_sorted (l : List PatientRow) :
    (sortRows l).Pairwise
      (fun a b => b.patient.created_at ≤ a.patient.created_at) := by
  induction l with
  | nil => simp [sortRows]
  | cons y ys ih => exact pairwise_insertRow y (sortRows ys) ih

/-- Every row of a query answer comes from a store row that matched the
predicate, carries exactly that row's waiting visits, and is nonempty. -/
theorem mem_runQuery (q : String) (store : List PatientRow) (r : PatientRow)
    (h : r ∈ runQuery q store) :
    ∃ row ∈ store, matchesQuery q row.patient = true
      ∧ r = { row with visits := waitingVisits row } ∧ r.visits ≠ [] := by
  rw [runQuery, mem_sortRows] at h
  obtain ⟨h1, h2⟩ := List.mem_filter.mp h
  obtain ⟨row, hrow, hfr⟩ := List.mem_map.mp h1
  obtain ⟨hrs, hmq⟩ := List.mem_filter.mp hrow
  refine ⟨row, hrs, hmq, hfr.symm, ?_⟩
  intro hnil
  rw [hnil] at h2
  simp at h2

/-! ### Search claims -/

/-- C8: the filter the component sends to the store is exactly the
case-insensitive substring test applied disjunctively to `uid`, `phone`
and `name`: a patient matches iff the lower-cased query occurs contiguously
in at least one lower-cased field. -/
theorem C8_predicate_substring_or (q : String) (p : Patient) :
    matchesQuery q p = true ↔
      ((∃ l r, (strLower p.uid).data = l ++ (strLower q).data ++ r)
        ∨ (∃ l r, (strLower p.phone).data = l ++ (strLower q).data ++ r)
        ∨ (∃ l r, (strLower p.name).data = l ++ (strLower q).data ++ r)) := by
  simp only [matchesQuery, ciContains, Bool.or_eq_true, containsL_iff]
  rw [or_assoc]

/-- C2: every search result traces back to a store row whose patient it is
and which has at least one visit with status exactly `waiting`; matching
patients without a waiting visit never appear. -/
theorem C2_only_waiting_patients (q : String) (store : List PatientRow)
    (res : SearchResult) (h : res ∈ shapeResults (runQuery q store)) :
    ∃ row ∈ store, row.patient = res.patient
      ∧ ∃ v ∈ row.visits, v.status = "waiting" := by
  obtain ⟨r, hr, hres⟩ := List.mem_map.mp h
  obtain ⟨row, hrow, hmq, hform, hne⟩ := mem_runQuery q store r hr
  have hw : waitingVisits row ≠ [] := by
    rw [hform] at hne
    exact hne
  obtain ⟨v, hv⟩ := List.exists_mem_of_ne_nil _ hw
  obtain ⟨hvmem, hvst⟩ := List.mem_filter.mp hv
  refine ⟨row, hrow, ?_, v, hvmem, by simpa using hvst⟩
  rw [← hres, hform]

/-- Witness for `C2_only_waiting_patients`: on the sample store, searching
`ann` yields Ann Gamma as a result, and she indeed has a waiting visit. -/
theorem C2_only_waiting_patients_witness :
    ({ patient := annGamma, currentVisit := some visitC1 } : SearchResult)
        ∈ shapeResults (runQuery "ann" demoStore)
      ∧ ∃ row ∈ demoStore,
          row.patient
              = ({ patient := annGamma,
                   currentVisit := some visitC1 } : SearchResult).patient
            ∧ ∃ v ∈ row.visits, v.status = "waiting" :=
  ⟨by decide, C2_only_waiting_patients "ann" demoStore _ (by decide)⟩

/-- C3 counterexample: searching `ann` on the sample store yields visit
creation times `[7, 5, 10]` — Ann Gamma's `currentVisit` is her
first-listed waiting visit (created at 7), not her most recent one
(created at 9), and the results are not in visit-creation-time descending
order (which would read `[10, 9, 5]`): the request orders patients by the
patients' own `created_at`, not the visits'. -/
theorem C3_counterexample :
    (shapeResults (runQuery "ann" demoStore)).map
        (fun res => res.currentVisit.map Visit.created_at)
        = [some 7, some 5, some 10]
      ∧ ¬ (shapeResults (runQuery "ann" demoStore)).map
          (fun res => res.currentVisit.map Visit.created_at)
          = [some 10, some 9, some 5] := by
  decide

/-- C3 (amended): each result's `currentVisit` is the first waiting visit
in the store's own embedded order (later ones are discarded), and the
result rows are ordered by patient `created_at` descending — the request
orders the parent rows only and does not order the joined visits. -/
theorem C3_current_visit_store_order (q : String) (store : List PatientRow)
    (res : SearchResult) (h : res ∈ shapeResults (runQuery q store)) :
    (runQuery q store).Pairwise
        (fun a b => b.patient.created_at ≤ a.patient.created_at)
      ∧ ∃ row ∈ store, res.patient = row.patient
          ∧ res.currentVisit = (waitingVisits row).head? := by
  refine ⟨by rw [runQuery]; exact sortRows_sorted _, ?_⟩
  obtain ⟨r, hr, hres⟩ := List.mem_map.mp h
  obtain ⟨row, hrow, hmq, hform, hne⟩ := mem_runQuery q store r hr
  refine ⟨row, hrow, ?_, ?_⟩
  · rw [← hres, hform]
  · rw [← hres, hform]

/-- Witness for `C3_current_visit_store_order` at the sample store. -/
theorem C3_current_visit_store_order_witness :
    ({ patient := annGamma, currentVisit := some visitC1 } : SearchResult)
        ∈ shapeResults (runQuery "ann" demoStore)
      ∧ ((runQuery "ann" demoStore).Pairwise
            (fun a b => b.patient.created_at ≤ a.patient.created_at)
          ∧ ∃ row ∈ demoStore,
              ({ patient := annGamma,
                 currentVisit := some visitC1 } : SearchResult).patient
                  = row.patient
                ∧ ({ patient := annGamma,
                     currentVisit := some visitC1 } : SearchResult).currentVisit
                  = (waitingVisits row).head?) :=
  ⟨by decide, C3_current_visit_store_order "ann" demoStore _ (by decide)⟩

/-- C1: a non-blank query that matches nothing completes the success path
with an empty list; the outcome is a value of the `ok` constructor, so the
caller tells "no matches" from "request failed" by the constructor and not
by list length. -/
theorem C1_empty_is_success (q : String) (store : List PatientRow)
    (hq : jsTrim q ≠ "") (hempty : runQuery q store = []) :
    searchStore q store = Except.ok ([] : List SearchResult)
      ∧ searchStore q store ≠ Except.error SearchError.searchFailed
      ∧ searchStore q store ≠ Except.error SearchError.emptyQuery := by
  have hmain : searchStore q store = Except.ok ([] : List SearchResult) := by
    rw [searchStore, hempty, search, if_neg hq]
    rfl
  rw [hmain]
  exact ⟨rfl, fun hc => Except.noConfusion hc, fun hc => Except.noConfusion hc⟩

/-- Witness for `C1_empty_is_success`: query `zz` on the empty store. -/
theorem C1_empty_is_success_witness :
    jsTrim "zz" ≠ "" ∧ runQuery "zz" ([] : List PatientRow) = []
      ∧ (searchStore "zz" [] = Except.ok ([] : List SearchResult)
          ∧ searchStore "zz" [] ≠ Except.error SearchError.searchFailed
          ∧ searchStore "zz" [] ≠ Except.error SearchError.emptyQuery) :=
  ⟨by decide, rfl, C1_empty_is_success "zz" [] (by decide) rfl⟩

/-- C7: a query that trims to the empty string is rejected with
`EmptyQueryError`, and the resulting state does not depend on the store's
response — no request is consulted. -/
theorem C7_blank_query_rejected (st : UIState)
    (resp resp' : Except String (List PatientRow))
    (h : jsTrim st.searchTerm = "") :
    search st.searchTerm resp = Except.error SearchError.emptyQuery
      ∧ handleSearch st resp = handleSearch st resp' := by
  constructor
  · rw [search.eq_def, if_pos h]
  · rw [handleSearch.eq_def, if_pos h, handleSearch.eq_def, if_pos h]

/-- Witness for `C7_blank_query_rejected` at `""` and at `"   "`. -/
theorem C7_blank_query_rejected_witness :
    (jsTrim "" = ""
      ∧ (search "" (Except.ok []) = Except.error SearchError.emptyQuery
          ∧ handleSearch ⟨"", [], false, none⟩ (Except.ok [])
              = handleSearch ⟨"", [], false, none⟩ (Except.error "down")))
    ∧ (jsTrim "   " = ""
      ∧ search "   " (Except.error "down")
          = Except.error SearchError.emptyQuery) :=
  ⟨⟨by decide,
      C7_blank_query_rejected ⟨"", [], false, none⟩ (Except.ok [])
        (Except.error "down") (by decide)⟩,
   ⟨by decide,
      (C7_blank_query_rejected ⟨"   ", [], false, none⟩ (Except.error "down")
        (Except.ok []) (by decide)).1⟩⟩

/-- C10: on both failure paths — blank query and store error — the held
result list is untouched; only a successful search replaces it. -/
theorem C10_failure_preserves_results (st : UIState)
    (resp : Except String (List PatientRow))
    (h : jsTrim st.searchTerm = "" ∨ ∃ e, resp = Except.error e) :
    (handleSearch st resp).searchResults = st.searchResults := by
  rcases h with h | ⟨e, rfl⟩
  · rw [handleSearch.eq_def, if_pos h]
  · by_cases hb : jsTrim st.searchTerm = ""
    · rw [handleSearch.eq_def, if_pos hb]
    · rw [handleSearch.eq_def, if_neg hb]

/-- Witness for `C10_failure_preserves_results`: a blank query and a store
failure both keep the previously displayed result. -/
theorem C10_failure_preserves_results_witness :
    (handleSearch ⟨"", [⟨annAlpha, some visitA⟩], false, none⟩
        (Except.ok [])).searchResults = [⟨annAlpha, some visitA⟩]
      ∧ (handleSearch ⟨"ann", [⟨annAlpha, some visitA⟩], false, none⟩
          (Except.error "down")).searchResults = [⟨annAlpha, some visitA⟩] :=
  ⟨C10_failure_preserves_results _ _ (Or.inl (by decide)),
   C10_failure_preserves_results _ _ (Or.inr ⟨"down", rfl⟩)⟩

end ClinicDashboard
